import Mathlib

/-!
Shallow embedding of `src/main.rs` (LiDAR scan → DBSCAN clustering →
per-cluster bounding boxes → HTTP dispatch), together with proofs of the
specification's claims about it.

Numeric model: `f32` values are modelled exactly as rationals adjoined with
the IEEE special values `inf`, `ninf` and `nan`; finite arithmetic is exact
(rounding and overflow are idealized away), the special values follow the
IEEE rules used by the source (`f32::min`/`f32::max` ignore `NaN`,
`∞ + (-∞) = NaN`, `-∞ - ∞ = -∞`, `∞ · 0 = NaN`, …).

External collaborators are parameters of the model: the DBSCAN engine
(crate `linfa_clustering`) is an abstract labeling function
`cluster : List (F × F) → List (Option Nat)`, the sensor is a per-cycle
`Except` value (`lidar.grab_scan()`), the HTTP sink outcome is a per-cycle
boolean (`send_data_to_ground_server`), and the trigonometric conversions
(`to_radians`, `cos`, `sin`) are abstract functions on `F`.
-/

/-- Model of an `f32` value: an exact rational, or one of the IEEE special
values `+∞`, `-∞`, `NaN`. -/
inductive F
  | fin (q : ℚ)
  | inf
  | ninf
  | nan
deriving DecidableEq, Repr

/-- Rust `f32::min` (`acc.min(x)`): ignores `NaN` (returns the other
operand); `-∞` is smaller than everything, `+∞` larger. -/
def Fmin : F → F → F
  | F.nan, b => b
  | a, F.nan => a
  | F.ninf, _ => F.ninf
  | _, F.ninf => F.ninf
  | F.inf, b => b
  | a, F.inf => a
  | F.fin a, F.fin b => F.fin (min a b)

/-- Rust `f32::max` (`acc.max(x)`): ignores `NaN`. -/
def Fmax : F → F → F
  | F.nan, b => b
  | a, F.nan => a
  | F.inf, _ => F.inf
  | _, F.inf => F.inf
  | F.ninf, b => b
  | a, F.ninf => a
  | F.fin a, F.fin b => F.fin (max a b)

/-- IEEE addition on the model: `NaN` absorbs, `∞ + (-∞) = NaN`. -/
def Fadd : F → F → F
  | F.nan, _ => F.nan
  | _, F.nan => F.nan
  | F.inf, F.ninf => F.nan
  | F.ninf, F.inf => F.nan
  | F.inf, _ => F.inf
  | _, F.inf => F.inf
  | F.ninf, _ => F.ninf
  | _, F.ninf => F.ninf
  | F.fin a, F.fin b => F.fin (a + b)

/-- IEEE negation on the model. -/
def Fneg : F → F
  | F.nan => F.nan
  | F.inf => F.ninf
  | F.ninf => F.inf
  | F.fin a => F.fin (-a)

/-- IEEE subtraction, `a - b = a + (-b)`. -/
def Fsub (a b : F) : F := Fadd a (Fneg b)

/-- IEEE multiplication on the model: `NaN` absorbs, `±∞ · 0 = NaN`. -/
def Fmul : F → F → F
  | F.nan, _ => F.nan
  | _, F.nan => F.nan
  | F.inf, F.inf => F.inf
  | F.inf, F.ninf => F.ninf
  | F.ninf, F.inf => F.ninf
  | F.ninf, F.ninf => F.inf
  | F.inf, F.fin q => if q = 0 then F.nan else if 0 < q then F.inf else F.ninf
  | F.fin q, F.inf => if q = 0 then F.nan else if 0 < q then F.inf else F.ninf
  | F.ninf, F.fin q => if q = 0 then F.nan else if 0 < q then F.ninf else F.inf
  | F.fin q, F.ninf => if q = 0 then F.nan else if 0 < q then F.ninf else F.inf
  | F.fin a, F.fin b => F.fin (a * b)

/-- Division by `2.0` (used for the box center and half-extents). -/
def Fdiv2 : F → F
  | F.nan => F.nan
  | F.inf => F.inf
  | F.ninf => F.ninf
  | F.fin a => F.fin (a / 2)

/-- IEEE `≤` comparison: any comparison involving `NaN` is false. -/
def Fle : F → F → Bool
  | F.nan, _ => false
  | _, F.nan => false
  | F.ninf, _ => true
  | _, F.inf => true
  | F.inf, _ => false
  | _, F.ninf => false
  | F.fin a, F.fin b => decide (a ≤ b)

/-- Whether a model value is an ordinary (finite) number. -/
def F.isFinite : F → Bool
  | F.fin _ => true
  | _ => false

/-- Embeds a list of exact rational coordinate pairs as finite `f32` points. -/
def embedQ (pts : List (ℚ × ℚ)) : List (F × F) :=
  pts.map (fun q => (F.fin q.1, F.fin q.2))

/-- One sensor reading, as produced by `lidar.grab_scan()`:
`point.angle()` and `point.distance()`. -/
structure Sample where
  angle : F
  distance : F
deriving DecidableEq, Repr

/-- The `BoundingBox` struct of the source. -/
structure BoundingBox where
  center : F × F
  width : F
  height : F
  theta : F
deriving DecidableEq, Repr

/-- `calculate_bounding_box`: folds `min`/`max` over the two coordinate
columns starting from `+∞` / `-∞`, then forms center and extents; `theta`
is always `0.0`. -/
def calculate_bounding_box (points : List (F × F)) : BoundingBox :=
  let x_min := points.foldl (fun acc p => Fmin acc p.1) F.inf
  let x_max := points.foldl (fun acc p => Fmax acc p.1) F.ninf
  let y_min := points.foldl (fun acc p => Fmin acc p.2) F.inf
  let y_max := points.foldl (fun acc p => Fmax acc p.2) F.ninf
  { center := (Fdiv2 (Fadd x_min x_max), Fdiv2 (Fadd y_min y_max))
    width := Fsub x_max x_min
    height := Fsub y_max y_min
    theta := F.fin 0 }

/-- The point-cloud builder (the `for point in scan` loop of `main`):
`x = distance·cos(angle_rad)`, `y = distance·sin(angle_rad)` for every
sample, in order. `to_radians`, `cos` and `sin` are abstract parameters. -/
def buildPoints (toRadians fcos fsin : F → F) (scan : List Sample) : List (F × F) :=
  scan.map (fun p =>
    let angle_rad := toRadians p.angle
    (Fmul p.distance (fcos angle_rad), Fmul p.distance (fsin angle_rad)))

/-- One iteration of the grouping loop of `main`: a noise-labeled point is
dropped, a point labeled `Some cluster_id` is appended at the end of the
array `cluster_points[cluster_id]`. -/
def groupStep (buckets : List (List (F × F))) (pl : (F × F) × Option Nat) :
    List (List (F × F)) :=
  match pl.2 with
  | none => buckets
  | some cluster_id => buckets.set cluster_id (buckets.getD cluster_id [] ++ [pl.1])

/-- The grouping loop of `main`: `num_clusters` empty arrays, then one
`groupStep` per (point, label) pair in scan order. -/
def groupPoints (pts : List (F × F)) (labels : List (Option Nat)) (num_clusters : Nat) :
    List (List (F × F)) :=
  (pts.zip labels).foldl groupStep (List.replicate num_clusters [])

/-- Models `clusters.label_count().remove(0).len()`: the number of distinct
labels occurring in the targets (the `None` noise key included when
present). -/
def labelCountLen (labels : List (Option Nat)) : Nat :=
  labels.toFinset.card

/-- The points carrying label `some i`, in scan order (the reference value
of the grouping loop's bucket `i`). -/
def clusterSlice (pts : List (F × F)) (labels : List (Option Nat)) (i : Nat) :
    List (F × F) :=
  (pts.zip labels).filterMap (fun pl => if pl.2 = some i then some pl.1 else none)

/-- The points carrying the noise label `none`, in scan order. -/
def noisePoints (pts : List (F × F)) (labels : List (Option Nat)) : List (F × F) :=
  (pts.zip labels).filterMap (fun pl => if pl.2 = none then some pl.1 else none)

/-- Modelled from the spec: the parameter validation performed inside the
external clustering library's `transform` (not under `src/`) — `tolerance`
must be positive and `min_points` at least 1; `transform` returns `Err`
otherwise, which `main` unwraps. -/
def validParams (min_points : Nat) (tolerance : ℚ) : Bool :=
  decide (1 ≤ min_points) && decide (0 < tolerance)

/-- The body of the `LidarData` payload handed to
`send_data_to_ground_server` (timestamp omitted): scan points, index-aligned
labels, and one `(label, box)` pair per entry of `cluster_points`. -/
structure ScanResult where
  scan_points : List (F × F)
  point_labels : List (Option Nat)
  bounding_boxes : List (Nat × BoundingBox)
deriving DecidableEq, Repr

/-- The pure data computed by one loop iteration on a successfully grabbed
scan (points → labels → grouping → bounding boxes), as assembled for the
sink. -/
def scanResultOf (cluster : List (F × F) → List (Option Nat))
    (toRadians fcos fsin : F → F) (samples : List Sample) : ScanResult :=
  let scan_points := buildPoints toRadians fcos fsin samples
  let labels := cluster scan_points
  let num_clusters := labelCountLen labels
  let cluster_points := groupPoints scan_points labels num_clusters
  { scan_points := scan_points
    point_labels := labels
    bounding_boxes :=
      cluster_points.enum.map (fun b => (b.1, calculate_bounding_box b.2)) }

instance {ε α : Type} [DecidableEq ε] [DecidableEq α] : DecidableEq (Except ε α) :=
  fun x y =>
  match x, y with
  | Except.error a, Except.error b =>
      if h : a = b then isTrue (by rw [h]) else isFalse (by simp [h])
  | Except.error _, Except.ok _ => isFalse (by simp)
  | Except.ok _, Except.error _ => isFalse (by simp)
  | Except.ok a, Except.ok b =>
      if h : a = b then isTrue (by rw [h]) else isFalse (by simp [h])

/-- The per-cycle inputs supplied by the external collaborators: the result
of `lidar.grab_scan()` and whether `send_data_to_ground_server` fails. -/
structure CycleInput where
  scan : Except Unit (List Sample)
  sinkFails : Bool
deriving DecidableEq, Repr

/-- Observable outcome of one loop iteration: the cycle was skipped
(`grab_scan` failed, logged, `continue`), the process panicked
(`transform(...).unwrap()` on invalid parameters), or a result was handed
to the sink (recording whether the sink reported an error, which is only
logged). -/
inductive CycleResult
  | skipped
  | panicked
  | dispatched (r : ScanResult) (sinkError : Bool)
deriving DecidableEq, Repr

/-- One iteration of the `loop` in `main`, parameterized by the external
clustering engine, the trigonometric functions, and the clustering
parameters bound in the loop body (`min_points = 3`,
`tolerance = 100.0` in the source). -/
def processCycle (cluster : List (F × F) → List (Option Nat))
    (toRadians fcos fsin : F → F) (min_points : Nat) (tolerance : ℚ)
    (inp : CycleInput) : CycleResult :=
  match inp.scan with
  | Except.error _ => CycleResult.skipped
  | Except.ok samples =>
      if validParams min_points tolerance then
        CycleResult.dispatched (scanResultOf cluster toRadians fcos fsin samples)
          inp.sinkFails
      else CycleResult.panicked

/-- The infinite `loop` of `main`, run over a finite trace of per-cycle
external inputs: cycles are processed strictly sequentially and share no
state. -/
def runLoop (cluster : List (F × F) → List (Option Nat))
    (toRadians fcos fsin : F → F) (min_points : Nat) (tolerance : ℚ)
    (inputs : List CycleInput) : List CycleResult :=
  inputs.map (processCycle cluster toRadians fcos fsin min_points tolerance)

lemma getD_eq_get {α : Type} : ∀ (l : List α) (i : Nat) (d : α) (h : i < l.length),
    l.getD i d = l.get ⟨i, h⟩
  | _ :: _, 0, _, _ => rfl
  | _ :: l, i + 1, d, h => getD_eq_get l i d (Nat.lt_of_succ_lt_succ h)

lemma getD_set_self {α : Type} : ∀ (l : List α) (i : Nat) (a d : α),
    i < l.length → (l.set i a).getD i d = a
  | _ :: _, 0, _, _, _ => rfl
  | _ :: l, i + 1, a, d, h => getD_set_self l i a d (Nat.lt_of_succ_lt_succ h)

lemma getD_set_ne {α : Type} : ∀ (l : List α) (i j : Nat) (a d : α),
    i ≠ j → (l.set i a).getD j d = l.getD j d
  | [], _, _, _, _, _ => rfl
  | _ :: _, 0, 0, _, _, hne => absurd rfl hne
  | _ :: _, 0, _ + 1, _, _, _ => rfl
  | _ :: _, _ + 1, 0, _, _, _ => rfl
  | _ :: l, i + 1, j + 1, a, d, hne =>
      getD_set_ne l i j a d (fun h => hne (by rw [h]))

lemma getD_replicate_nil {α : Type} : ∀ (n i : Nat),
    (List.replicate n ([] : List α)).getD i [] = []
  | 0, 0 => rfl
  | 0, _ + 1 => rfl
  | _ + 1, 0 => rfl
  | n + 1, i + 1 => getD_replicate_nil n i

lemma getD_map {α β : Type} (f : α → β) :
    ∀ (l : List α) (i : Nat) (d : β) (d' : α), i < l.length →
      (l.map f).getD i d = f (l.getD i d')
  | _ :: _, 0, _, _, _ => rfl
  | _ :: l, i + 1, d, d', h => getD_map f l i d d' (Nat.lt_of_succ_lt_succ h)

lemma getD_enumFrom {α : Type} : ∀ (l : List α) (j i : Nat) (d : Nat × α) (d' : α),
    i < l.length → (List.enumFrom j l).getD i d = (j + i, l.getD i d')
  | _ :: _, _, 0, _, _, _ => rfl
  | _ :: l, j, i + 1, d, d', h => by
      have ih := getD_enumFrom l (j + 1) i d d' (Nat.lt_of_succ_lt_succ h)
      simpa [List.enumFrom, Nat.add_assoc, Nat.add_comm 1 i] using ih

lemma length_groupStep (B : List (List (F × F))) (pl : (F × F) × Option Nat) :
    (groupStep B pl).length = B.length := by
  unfold groupStep
  cases pl.2 <;> simp

lemma length_foldl_groupStep :
    ∀ (l : List ((F × F) × Option Nat)) (B : List (List (F × F))),
      (l.foldl groupStep B).length = B.length
  | [], _ => rfl
  | pl :: l, B => by
      rw [List.foldl_cons, length_foldl_groupStep l (groupStep B pl), length_groupStep]

lemma foldl_groupStep_getD :
    ∀ (l : List ((F × F) × Option Nat)) (B : List (List (F × F))) (i : Nat),
      i < B.length →
      (l.foldl groupStep B).getD i []
        = B.getD i [] ++ l.filterMap (fun pl => if pl.2 = some i then some pl.1 else none)
  | [], B, i, _ => by simp
  | (p, o) :: l, B, i, hi => by
      rw [List.foldl_cons, List.filterMap_cons]
      cases o with
      | none =>
          simpa [groupStep] using foldl_groupStep_getD l B i hi
      | some j =>
          by_cases hj : j = i
          · subst hj
            have hlen : j < (B.set j (B.getD j [] ++ [p])).length := by simpa using hi
            have ih := foldl_groupStep_getD l (B.set j (B.getD j [] ++ [p])) j hlen
            rw [show groupStep B ((p, some j)) = B.set j (B.getD j [] ++ [p]) from rfl, ih,
              getD_set_self B j _ [] hi]
            simp
          · have hlen : i < (B.set j (B.getD j [] ++ [p])).length := by simpa using hi
            have ih := foldl_groupStep_getD l (B.set j (B.getD j [] ++ [p])) i hlen
            rw [show groupStep B ((p, some j)) = B.set j (B.getD j [] ++ [p]) from rfl, ih,
              getD_set_ne B j i _ [] hj]
            simp [hj]

lemma flatten_map_const_nil {α β : Type} : ∀ (l : List α),
    (l.map (fun _ => ([] : List β))).flatten = []
  | [] => rfl
  | _ :: l => by simp [flatten_map_const_nil l]

lemma flatten_map_perm_cons {α : Type} :
    ∀ (is : List Nat) (f g : Nat → List α) (j : Nat) (p : α),
      is.Nodup → j ∈ is → f j = p :: g j → (∀ i, i ≠ j → f i = g i) →
      ((is.map f).flatten).Perm (p :: (is.map g).flatten)
  | [], _, _, _, _, _, hj, _, _ => absurd hj (List.not_mem_nil _)
  | i₀ :: is, f, g, j, p, hnd, hj, hfj, hfg => by
      rcases List.nodup_cons.mp hnd with ⟨hi₀, hnd'⟩
      by_cases h : i₀ = j
      · subst h
        have hrest : is.map f = is.map g := by
          apply List.map_congr_left
          intro i hi
          exact hfg i (fun hij => hi₀ (hij ▸ hi))
        simp only [List.map_cons, List.flatten_cons, hfj, hrest]
        exact List.Perm.refl _
      · have hj' : j ∈ is := by
          cases hj with
          | head => exact absurd rfl h
          | tail _ hmem => exact hmem
        have ih := flatten_map_perm_cons is f g j p hnd' hj' hfj hfg
        simp only [List.map_cons, List.flatten_cons, hfg i₀ h]
        exact ((List.Perm.append_left (g i₀) ih).trans List.perm_middle)

lemma grouping_perm_aux :
    ∀ (zl : List ((F × F) × Option Nat)) (n : Nat),
      (∀ pl ∈ zl, ∀ i : Nat, pl.2 = some i → i < n) →
      ((((List.range n).map (fun i =>
            zl.filterMap (fun pl => if pl.2 = some i then some pl.1 else none))).flatten)
          ++ zl.filterMap (fun pl => if pl.2 = none then some pl.1 else none)).Perm
        (zl.map Prod.fst)
  | [], n, _ => by
      simp [flatten_map_const_nil]
  | (p, o) :: zl, n, hbound => by
      have hbound' : ∀ pl ∈ zl, ∀ i : Nat, pl.2 = some i → i < n :=
        fun pl hpl i hi => hbound pl (List.mem_cons_of_mem _ hpl) i hi
      have ih := grouping_perm_aux zl n hbound'
      cases o with
      | none =>
          have hslice : ∀ i : Nat,
              ((p, (none : Option Nat)) :: zl).filterMap
                  (fun pl => if pl.2 = some i then some pl.1 else none)
                = zl.filterMap (fun pl => if pl.2 = some i then some pl.1 else none) := by
            intro i; simp [List.filterMap_cons]
          have hnoise : ((p, (none : Option Nat)) :: zl).filterMap
              (fun pl => if pl.2 = none then some pl.1 else none)
              = p :: zl.filterMap (fun pl => if pl.2 = none then some pl.1 else none) := by
            simp [List.filterMap_cons]
          simp only [hslice, hnoise, List.map_cons]
          exact List.perm_middle.trans (ih.cons p)
      | some j =>
          have hj : j < n := hbound (p, some j) (List.mem_cons_self _ _) j rfl
          have hperm := flatten_map_perm_cons (List.range n)
            (fun i => ((p, (some j : Option Nat)) :: zl).filterMap
              (fun pl => if pl.2 = some i then some pl.1 else none))
            (fun i => zl.filterMap (fun pl => if pl.2 = some i then some pl.1 else none))
            j p (List.nodup_range n) (List.mem_range.mpr hj)
            (by simp [List.filterMap_cons])
            (by
              intro i hij
              simp only [List.filterMap_cons]
              have : ¬ ((p, (some j : Option Nat)).2 = some i) := by
                simp; exact fun h => hij (h ▸ rfl)
              simp [this])
          have hnoise : ((p, (some j : Option Nat)) :: zl).filterMap
              (fun pl => if pl.2 = none then some pl.1 else none)
              = zl.filterMap (fun pl => if pl.2 = none then some pl.1 else none) := by
            simp [List.filterMap_cons]
          rw [hnoise, List.map_cons]
          refine List.Perm.trans (List.Perm.append_right _ hperm) ?_
          exact ih.cons p

lemma groupPoints_length (pts : List (F × F)) (labels : List (Option Nat)) (n : Nat) :
    (groupPoints pts labels n).length = n := by
  unfold groupPoints
  rw [length_foldl_groupStep, List.length_replicate]

lemma groupPoints_getD (pts : List (F × F)) (labels : List (Option Nat)) (n i : Nat)
    (hi : i < n) :
    (groupPoints pts labels n).getD i [] = clusterSlice pts labels i := by
  unfold groupPoints clusterSlice
  rw [foldl_groupStep_getD (pts.zip labels) (List.replicate n []) i (by simpa using hi),
    getD_replicate_nil]
  simp

lemma groupPoints_eq_map_range (pts : List (F × F)) (labels : List (Option Nat)) (n : Nat) :
    groupPoints pts labels n = (List.range n).map (clusterSlice pts labels) := by
  apply List.ext_get
  · simp [groupPoints_length pts labels n]
  · intro i h1 h2
    have hi : i < n := by simpa [groupPoints_length] using h1
    rw [← getD_eq_get _ i [] h1, ← getD_eq_get _ i [] h2]
    rw [groupPoints_getD pts labels n i hi]
    rw [getD_map _ _ i [] 0 (by simpa using h2)]
    congr 1
    rw [getD_eq_get _ i 0 (by simpa using h2)]
    simp

lemma groupPoints_flatten_perm (pts : List (F × F)) (labels : List (Option Nat)) (n : Nat)
    (hlen : labels.length = pts.length)
    (hbound : ∀ i : Nat, some i ∈ labels → i < n) :
    ((groupPoints pts labels n).flatten ++ noisePoints pts labels).Perm pts := by
  have hzl : ∀ pl ∈ pts.zip labels, ∀ i : Nat, pl.2 = some i → i < n := by
    intro pl hpl i hi
    exact hbound i (hi ▸ (List.of_mem_zip hpl).2)
  have h := grouping_perm_aux (pts.zip labels) n hzl
  rw [List.map_fst_zip pts labels hlen.ge] at h
  rw [groupPoints_eq_map_range]
  have hfun : clusterSlice pts labels = fun i =>
      (pts.zip labels).filterMap (fun pl => if pl.2 = some i then some pl.1 else none) := rfl
  rw [hfun]
  exact h

lemma foldlFmin_fin_seed : ∀ (l : List ℚ) (a : ℚ),
    List.foldl (fun acc x => Fmin acc (F.fin x)) (F.fin a) l = F.fin (List.foldl min a l)
  | [], _ => rfl
  | x :: l, a => foldlFmin_fin_seed l (min a x)

lemma foldlFmax_fin_seed : ∀ (l : List ℚ) (a : ℚ),
    List.foldl (fun acc x => Fmax acc (F.fin x)) (F.fin a) l = F.fin (List.foldl max a l)
  | [], _ => rfl
  | x :: l, a => foldlFmax_fin_seed l (max a x)

lemma foldl_min_eq_least : ∀ (l : List ℚ) (a m : ℚ),
    (m = a ∨ m ∈ l) → m ≤ a → (∀ x ∈ l, m ≤ x) → List.foldl min a l = m
  | [], _, m, hm, _, _ => by
      rcases hm with h | h
      · exact h.symm
      · exact absurd h (List.not_mem_nil m)
  | x :: l, a, m, hm, hle, hbd => by
      rw [List.foldl_cons]
      apply foldl_min_eq_least l (min a x) m
      · rcases hm with h | h
        · left
          rw [← h]
          exact (min_eq_left (hbd x (List.mem_cons_self _ _))).symm
        · rcases List.mem_cons.mp h with hx | hl
          · left
            rw [hx]
            exact (min_eq_right (hx ▸ hle)).symm
          · right; exact hl
      · exact le_min hle (hbd x (List.mem_cons_self _ _))
      · exact fun y hy => hbd y (List.mem_cons_of_mem _ hy)

lemma foldl_max_eq_greatest : ∀ (l : List ℚ) (a m : ℚ),
    (m = a ∨ m ∈ l) → a ≤ m → (∀ x ∈ l, x ≤ m) → List.foldl max a l = m
  | [], _, m, hm, _, _ => by
      rcases hm with h | h
      · exact h.symm
      · exact absurd h (List.not_mem_nil m)
  | x :: l, a, m, hm, hle, hbd => by
      rw [List.foldl_cons]
      apply foldl_max_eq_greatest l (max a x) m
      · rcases hm with h | h
        · left
          rw [← h]
          exact (max_eq_left (hbd x (List.mem_cons_self _ _))).symm
        · rcases List.mem_cons.mp h with hx | hl
          · left
            rw [hx]
            exact (max_eq_right (hx ▸ hle)).symm
          · right; exact hl
      · exact max_le hle (hbd x (List.mem_cons_self _ _))
      · exact fun y hy => hbd y (List.mem_cons_of_mem _ hy)

lemma foldlFmin_eq (l : List ℚ) (m : ℚ) (hmem : m ∈ l) (hbd : ∀ x ∈ l, m ≤ x) :
    List.foldl (fun acc x => Fmin acc (F.fin x)) F.inf l = F.fin m := by
  cases l with
  | nil => exact absurd hmem (List.not_mem_nil m)
  | cons a l =>
      rw [List.foldl_cons, show Fmin F.inf (F.fin a) = F.fin a from rfl,
        foldlFmin_fin_seed]
      congr 1
      apply foldl_min_eq_least l a m
      · rcases List.mem_cons.mp hmem with h | h
        · left; exact h
        · right; exact h
      · exact hbd a (List.mem_cons_self _ _)
      · exact fun y hy => hbd y (List.mem_cons_of_mem _ hy)

lemma foldlFmax_eq (l : List ℚ) (m : ℚ) (hmem : m ∈ l) (hbd : ∀ x ∈ l, x ≤ m) :
    List.foldl (fun acc x => Fmax acc (F.fin x)) F.ninf l = F.fin m := by
  cases l with
  | nil => exact absurd hmem (List.not_mem_nil m)
  | cons a l =>
      rw [List.foldl_cons, show Fmax F.ninf (F.fin a) = F.fin a from rfl,
        foldlFmax_fin_seed]
      congr 1
      apply foldl_max_eq_greatest l a m
      · rcases List.mem_cons.mp hmem with h | h
        · left; exact h
        · right; exact h
      · exact hbd a (List.mem_cons_self _ _)
      · exact fun y hy => hbd y (List.mem_cons_of_mem _ hy)

lemma bbox_eval (pts : List (ℚ × ℚ)) (mnx mxx mny mxy : ℚ)
    (hmnx : mnx ∈ pts.map Prod.fst ∧ ∀ x ∈ pts.map Prod.fst, mnx ≤ x)
    (hmxx : mxx ∈ pts.map Prod.fst ∧ ∀ x ∈ pts.map Prod.fst, x ≤ mxx)
    (hmny : mny ∈ pts.map Prod.snd ∧ ∀ y ∈ pts.map Prod.snd, mny ≤ y)
    (hmxy : mxy ∈ pts.map Prod.snd ∧ ∀ y ∈ pts.map Prod.snd, y ≤ mxy) :
    calculate_bounding_box (embedQ pts) =
      { center := (F.fin ((mnx + mxx) / 2), F.fin ((mny + mxy) / 2))
        width := F.fin (mxx - mnx)
        height := F.fin (mxy - mny)
        theta := F.fin 0 } := by
  have e1 : (embedQ pts).foldl (fun acc p => Fmin acc p.1) F.inf
      = (pts.map Prod.fst).foldl (fun acc x => Fmin acc (F.fin x)) F.inf := by
    simp [embedQ, List.foldl_map]
  have e2 : (embedQ pts).foldl (fun acc p => Fmax acc p.1) F.ninf
      = (pts.map Prod.fst).foldl (fun acc x => Fmax acc (F.fin x)) F.ninf := by
    simp [embedQ, List.foldl_map]
  have e3 : (embedQ pts).foldl (fun acc p => Fmin acc p.2) F.inf
      = (pts.map Prod.snd).foldl (fun acc x => Fmin acc (F.fin x)) F.inf := by
    simp [embedQ, List.foldl_map]
  have e4 : (embedQ pts).foldl (fun acc p => Fmax acc p.2) F.ninf
      = (pts.map Prod.snd).foldl (fun acc x => Fmax acc (F.fin x)) F.ninf := by
    simp [embedQ, List.foldl_map]
  simp only [calculate_bounding_box, e1, e2, e3, e4,
    foldlFmin_eq (pts.map Prod.fst) mnx hmnx.1 hmnx.2,
    foldlFmax_eq (pts.map Prod.fst) mxx hmxx.1 hmxx.2,
    foldlFmin_eq (pts.map Prod.snd) mny hmny.1 hmny.2,
    foldlFmax_eq (pts.map Prod.snd) mxy hmxy.1 hmxy.2]
  simp [Fadd, Fdiv2, Fsub, Fneg, sub_eq_add_neg]

lemma foldl_min_le : ∀ (l : List ℚ) (a : ℚ),
    List.foldl min a l ≤ a ∧ ∀ x ∈ l, List.foldl min a l ≤ x
  | [], a => ⟨le_refl a, fun x hx => absurd hx (List.not_mem_nil x)⟩
  | x :: l, a => by
      rw [List.foldl_cons]
      have ih := foldl_min_le l (min a x)
      refine ⟨ih.1.trans (min_le_left a x), fun y hy => ?_⟩
      rcases List.mem_cons.mp hy with h | h
      · exact h ▸ ih.1.trans (min_le_right a x)
      · exact ih.2 y h

lemma foldl_min_mem : ∀ (l : List ℚ) (a : ℚ),
    List.foldl min a l = a ∨ List.foldl min a l ∈ l
  | [], a => Or.inl rfl
  | x :: l, a => by
      rw [List.foldl_cons]
      rcases foldl_min_mem l (min a x) with h | h
      · rcases min_choice a x with hc | hc
        · exact Or.inl (h.trans hc)
        · right
          rw [h, hc]
          exact List.mem_cons_self x l
      · exact Or.inr (List.mem_cons_of_mem x h)

lemma foldl_max_ge : ∀ (l : List ℚ) (a : ℚ),
    a ≤ List.foldl max a l ∧ ∀ x ∈ l, x ≤ List.foldl max a l
  | [], a => ⟨le_refl a, fun x hx => absurd hx (List.not_mem_nil x)⟩
  | x :: l, a => by
      rw [List.foldl_cons]
      have ih := foldl_max_ge l (max a x)
      refine ⟨(le_max_left a x).trans ih.1, fun y hy => ?_⟩
      rcases List.mem_cons.mp hy with h | h
      · exact h ▸ (le_max_right a x).trans ih.1
      · exact ih.2 y h

lemma foldl_max_mem : ∀ (l : List ℚ) (a : ℚ),
    List.foldl max a l = a ∨ List.foldl max a l ∈ l
  | [], a => Or.inl rfl
  | x :: l, a => by
      rw [List.foldl_cons]
      rcases foldl_max_mem l (max a x) with h | h
      · rcases max_choice a x with hc | hc
        · exact Or.inl (h.trans hc)
        · right
          rw [h, hc]
          exact List.mem_cons_self x l
      · exact Or.inr (List.mem_cons_of_mem x h)

lemma Fmul_left_nonfinite (a b : F) (ha : a.isFinite = false) :
    (Fmul a b).isFinite = false := by
  cases a with
  | fin q => simp [F.isFinite] at ha
  | inf =>
      cases b <;> simp only [Fmul] <;>
        first
        | rfl
        | (split <;> first | rfl | (split <;> rfl))
  | ninf =>
      cases b <;> simp only [Fmul] <;>
        first
        | rfl
        | (split <;> first | rfl | (split <;> rfl))
  | nan => cases b <;> rfl

lemma labelCountLen_of_none_mem (labels : List (Option Nat)) (hnoise : none ∈ labels) :
    labelCountLen labels = (labels.filterMap id).toFinset.card + 1 := by
  unfold labelCountLen
  have hset : labels.toFinset
      = insert none ((labels.filterMap id).toFinset.image some) := by
    ext o
    cases o with
    | none => simp [List.mem_toFinset, hnoise]
    | some i => simp [List.mem_toFinset, List.mem_filterMap]
  rw [hset, Finset.card_insert_of_not_mem (by simp),
    Finset.card_image_of_injective _ (Option.some_injective Nat)]

lemma clusterSlice_eq_nil (pts : List (F × F)) (labels : List (Option Nat)) (k : Nat)
    (hk : ∀ i : Nat, some i ∈ labels → i ≠ k) :
    clusterSlice pts labels k = [] := by
  unfold clusterSlice
  rw [List.filterMap_eq_nil_iff]
  intro pl hpl
  have h2 : pl.2 ∈ labels := (List.of_mem_zip hpl).2
  cases h : pl.2 with
  | none => simp
  | some i =>
      have : i ≠ k := hk i (h ▸ h2)
      simp [this]

/-- Claim C1: in every scan cycle the grouping step partitions the input:
bucket `i` receives exactly the points labeled `ClusterId(i)` (in scan
order, each exactly once), noise-labeled points are appended to no bucket,
and the concatenation of all buckets plus the noise points is a
permutation of the full input point list. Hypotheses: labels are
index-aligned with points and (as DBSCAN guarantees) densely numbered
below `label_count.len()`. -/
theorem claim_C1 (pts : List (F × F)) (labels : List (Option Nat)) (i : Nat)
    (hlen : labels.length = pts.length)
    (hdense : ∀ j ∈ labels.filterMap id, j < labelCountLen labels)
    (hi : i < labelCountLen labels) :
    (groupPoints pts labels (labelCountLen labels)).length = labelCountLen labels
    ∧ (groupPoints pts labels (labelCountLen labels)).getD i [] = clusterSlice pts labels i
    ∧ ((groupPoints pts labels (labelCountLen labels)).flatten
        ++ noisePoints pts labels).Perm pts := by
  have hb : ∀ j : Nat, some j ∈ labels → j < labelCountLen labels := by
    intro j hj
    exact hdense j (List.mem_filterMap.mpr ⟨some j, hj, rfl⟩)
  exact ⟨groupPoints_length _ _ _, groupPoints_getD _ _ _ i hi,
    groupPoints_flatten_perm _ _ _ hlen hb⟩

/-- Witness for C1 on a concrete three-point scan with labels
`[Some 0, None, Some 0]`. -/
theorem claim_C1_witness :
    (groupPoints [(F.fin 1, F.fin 1), (F.fin 2, F.fin 2), (F.fin 3, F.fin 3)]
        [some 0, none, some 0]
        (labelCountLen [some 0, none, some 0])).length
      = labelCountLen [some 0, none, some 0]
    ∧ (groupPoints [(F.fin 1, F.fin 1), (F.fin 2, F.fin 2), (F.fin 3, F.fin 3)]
        [some 0, none, some 0]
        (labelCountLen [some 0, none, some 0])).getD 0 []
      = clusterSlice [(F.fin 1, F.fin 1), (F.fin 2, F.fin 2), (F.fin 3, F.fin 3)]
          [some 0, none, some 0] 0
    ∧ ((groupPoints [(F.fin 1, F.fin 1), (F.fin 2, F.fin 2), (F.fin 3, F.fin 3)]
        [some 0, none, some 0]
        (labelCountLen [some 0, none, some 0])).flatten
        ++ noisePoints [(F.fin 1, F.fin 1), (F.fin 2, F.fin 2), (F.fin 3, F.fin 3)]
            [some 0, none, some 0]).Perm
        [(F.fin 1, F.fin 1), (F.fin 2, F.fin 2), (F.fin 3, F.fin 3)] :=
  claim_C1 _ _ 0 (by decide) (by decide) (by decide)

/-- Claim C2: on a non-empty list of finite points, `calculate_bounding_box`
returns center `((min_x+max_x)/2, (min_y+max_y)/2)`, width `max_x - min_x`,
height `max_y - min_y` and `theta = 0`, where the min/max hypotheses say the
given rationals are the least/greatest coordinates of the input. -/
theorem claim_C2 (pts : List (ℚ × ℚ)) (mnx mxx mny mxy : ℚ)
    (hmnx : mnx ∈ pts.map Prod.fst ∧ ∀ x ∈ pts.map Prod.fst, mnx ≤ x)
    (hmxx : mxx ∈ pts.map Prod.fst ∧ ∀ x ∈ pts.map Prod.fst, x ≤ mxx)
    (hmny : mny ∈ pts.map Prod.snd ∧ ∀ y ∈ pts.map Prod.snd, mny ≤ y)
    (hmxy : mxy ∈ pts.map Prod.snd ∧ ∀ y ∈ pts.map Prod.snd, y ≤ mxy) :
    calculate_bounding_box (embedQ pts) =
      { center := (F.fin ((mnx + mxx) / 2), F.fin ((mny + mxy) / 2))
        width := F.fin (mxx - mnx)
        height := F.fin (mxy - mny)
        theta := F.fin 0 } :=
  bbox_eval pts mnx mxx mny mxy hmnx hmxx hmny hmxy

/-- Witness for C2 on the single-point input `(3, 4)`: width and height are
`0`, the center is the point itself, and no error occurs. -/
theorem claim_C2_witness :
    calculate_bounding_box (embedQ [(3, 4)]) =
      { center := (F.fin 3, F.fin 4)
        width := F.fin 0
        height := F.fin 0
        theta := F.fin 0 } := by
  have h := claim_C2 [(3, 4)] 3 3 4 4 (by decide) (by decide) (by decide) (by decide)
  rw [h]
  norm_num

lemma contain_left (c w x m : ℚ) (hcw : c - w / 2 = m) (hle : m ≤ x) :
    Fle (Fsub (F.fin c) (Fdiv2 (F.fin w))) (F.fin x) = true := by
  rw [show Fsub (F.fin c) (Fdiv2 (F.fin w)) = F.fin (c + -(w / 2)) from rfl,
    show Fle (F.fin (c + -(w / 2))) (F.fin x) = decide (c + -(w / 2) ≤ x) from rfl,
    decide_eq_true_eq, show c + -(w / 2) = c - w / 2 by ring, hcw]
  exact hle

lemma contain_right (c w x m : ℚ) (hcw : c + w / 2 = m) (hle : x ≤ m) :
    Fle (F.fin x) (Fadd (F.fin c) (Fdiv2 (F.fin w))) = true := by
  rw [show Fadd (F.fin c) (Fdiv2 (F.fin w)) = F.fin (c + w / 2) from rfl,
    show Fle (F.fin x) (F.fin (c + w / 2)) = decide (x ≤ c + w / 2) from rfl,
    decide_eq_true_eq, hcw]
  exact hle

/-- Claim C6: every point of a non-empty (finite-coordinate) cluster lies
inside the closed rectangle
`[center.x - width/2, center.x + width/2] × [center.y - height/2, center.y + height/2]`
of the box computed by `calculate_bounding_box` for that cluster. -/
theorem claim_C6 (pts : List (ℚ × ℚ)) (p : ℚ × ℚ) (hp : p ∈ pts) :
    Fle (Fsub (calculate_bounding_box (embedQ pts)).center.1
        (Fdiv2 (calculate_bounding_box (embedQ pts)).width)) (F.fin p.1) = true
    ∧ Fle (F.fin p.1) (Fadd (calculate_bounding_box (embedQ pts)).center.1
        (Fdiv2 (calculate_bounding_box (embedQ pts)).width)) = true
    ∧ Fle (Fsub (calculate_bounding_box (embedQ pts)).center.2
        (Fdiv2 (calculate_bounding_box (embedQ pts)).height)) (F.fin p.2) = true
    ∧ Fle (F.fin p.2) (Fadd (calculate_bounding_box (embedQ pts)).center.2
        (Fdiv2 (calculate_bounding_box (embedQ pts)).height)) = true := by
  cases pts with
  | nil => cases hp
  | cons q rest =>
      have hmn1 := foldl_min_le (rest.map Prod.fst) q.1
      have hmn2 := foldl_min_mem (rest.map Prod.fst) q.1
      have hmx1 := foldl_max_ge (rest.map Prod.fst) q.1
      have hmx2 := foldl_max_mem (rest.map Prod.fst) q.1
      have hny1 := foldl_min_le (rest.map Prod.snd) q.2
      have hny2 := foldl_min_mem (rest.map Prod.snd) q.2
      have hxy1 := foldl_max_ge (rest.map Prod.snd) q.2
      have hxy2 := foldl_max_mem (rest.map Prod.snd) q.2
      have hmnx : List.foldl min q.1 (rest.map Prod.fst) ∈ (q :: rest).map Prod.fst
          ∧ ∀ x ∈ (q :: rest).map Prod.fst, List.foldl min q.1 (rest.map Prod.fst) ≤ x := by
        constructor
        · rw [List.map_cons]
          rcases hmn2 with h | h
          · rw [h]; exact List.mem_cons_self _ _
          · exact List.mem_cons_of_mem _ h
        · intro x hx
          rw [List.map_cons] at hx
          rcases List.mem_cons.mp hx with h | h
          · exact h ▸ hmn1.1
          · exact hmn1.2 x h
      have hmxx : List.foldl max q.1 (rest.map Prod.fst) ∈ (q :: rest).map Prod.fst
          ∧ ∀ x ∈ (q :: rest).map Prod.fst, x ≤ List.foldl max q.1 (rest.map Prod.fst) := by
        constructor
        · rw [List.map_cons]
          rcases hmx2 with h | h
          · rw [h]; exact List.mem_cons_self _ _
          · exact List.mem_cons_of_mem _ h
        · intro x hx
          rw [List.map_cons] at hx
          rcases List.mem_cons.mp hx with h | h
          · exact h ▸ hmx1.1
          · exact hmx1.2 x h
      have hmny : List.foldl min q.2 (rest.map Prod.snd) ∈ (q :: rest).map Prod.snd
          ∧ ∀ y ∈ (q :: rest).map Prod.snd, List.foldl min q.2 (rest.map Prod.snd) ≤ y := by
        constructor
        · rw [List.map_cons]
          rcases hny2 with h | h
          · rw [h]; exact List.mem_cons_self _ _
          · exact List.mem_cons_of_mem _ h
        · intro y hy
          rw [List.map_cons] at hy
          rcases List.mem_cons.mp hy with h | h
          · exact h ▸ hny1.1
          · exact hny1.2 y h
      have hmxy : List.foldl max q.2 (rest.map Prod.snd) ∈ (q :: rest).map Prod.snd
          ∧ ∀ y ∈ (q :: rest).map Prod.snd, y ≤ List.foldl max q.2 (rest.map Prod.snd) := by
        constructor
        · rw [List.map_cons]
          rcases hxy2 with h | h
          · rw [h]; exact List.mem_cons_self _ _
          · exact List.mem_cons_of_mem _ h
        · intro y hy
          rw [List.map_cons] at hy
          rcases List.mem_cons.mp hy with h | h
          · exact h ▸ hxy1.1
          · exact hxy1.2 y h
      have hbb := bbox_eval (q :: rest) _ _ _ _ hmnx hmxx hmny hmxy
      rw [hbb]
      have hp1 : p.1 ∈ (q :: rest).map Prod.fst := List.mem_map_of_mem Prod.fst hp
      have hp2 : p.2 ∈ (q :: rest).map Prod.snd := List.mem_map_of_mem Prod.snd hp
      refine ⟨?_, ?_, ?_, ?_⟩
      · exact contain_left _ _ _ _ (by ring) (hmnx.2 p.1 hp1)
      · exact contain_right _ _ _ _ (by ring) (hmxx.2 p.1 hp1)
      · exact contain_left _ _ _ _ (by ring) (hmny.2 p.2 hp2)
      · exact contain_right _ _ _ _ (by ring) (hmxy.2 p.2 hp2)

/-- Witness for C6: the point `(1, 2)` of the two-point cluster
`[(0, 0), (1, 2)]` lies inside the computed box. -/
theorem claim_C6_witness :
    Fle (Fsub (calculate_bounding_box (embedQ [(0, 0), (1, 2)])).center.1
        (Fdiv2 (calculate_bounding_box (embedQ [(0, 0), (1, 2)])).width))
        (F.fin (1 : ℚ)) = true
    ∧ Fle (F.fin (1 : ℚ)) (Fadd (calculate_bounding_box (embedQ [(0, 0), (1, 2)])).center.1
        (Fdiv2 (calculate_bounding_box (embedQ [(0, 0), (1, 2)])).width)) = true
    ∧ Fle (Fsub (calculate_bounding_box (embedQ [(0, 0), (1, 2)])).center.2
        (Fdiv2 (calculate_bounding_box (embedQ [(0, 0), (1, 2)])).height))
        (F.fin (2 : ℚ)) = true
    ∧ Fle (F.fin (2 : ℚ)) (Fadd (calculate_bounding_box (embedQ [(0, 0), (1, 2)])).center.2
        (Fdiv2 (calculate_bounding_box (embedQ [(0, 0), (1, 2)])).height)) = true :=
  claim_C6 [(0, 0), (1, 2)] (1, 2) (by decide)

/-- Claim C7: the point-cloud builder maps a scan to an equal-length point
list where the `i`-th point is
`(distance_i * cos(to_radians angle_i), distance_i * sin(to_radians angle_i))`
(no filtering, no deduplication, no bounds check on distance), and a
non-finite distance makes both coordinates of the corresponding output
point non-finite. -/
theorem claim_C7 (toRadians fcos fsin : F → F) (samples : List Sample) (i : Nat)
    (hi : i < samples.length) :
    (buildPoints toRadians fcos fsin samples).length = samples.length
    ∧ (buildPoints toRadians fcos fsin samples).getD i (F.nan, F.nan)
        = (Fmul (samples.getD i ⟨F.nan, F.nan⟩).distance
            (fcos (toRadians (samples.getD i ⟨F.nan, F.nan⟩).angle)),
           Fmul (samples.getD i ⟨F.nan, F.nan⟩).distance
            (fsin (toRadians (samples.getD i ⟨F.nan, F.nan⟩).angle)))
    ∧ ((samples.getD i ⟨F.nan, F.nan⟩).distance.isFinite = false →
        ((buildPoints toRadians fcos fsin samples).getD i (F.nan, F.nan)).1.isFinite = false
        ∧ ((buildPoints toRadians fcos fsin samples).getD i (F.nan, F.nan)).2.isFinite
            = false) := by
  have hlen : (buildPoints toRadians fcos fsin samples).length = samples.length := by
    unfold buildPoints
    exact List.length_map _ _
  have hget : (buildPoints toRadians fcos fsin samples).getD i (F.nan, F.nan)
      = (Fmul (samples.getD i ⟨F.nan, F.nan⟩).distance
          (fcos (toRadians (samples.getD i ⟨F.nan, F.nan⟩).angle)),
         Fmul (samples.getD i ⟨F.nan, F.nan⟩).distance
          (fsin (toRadians (samples.getD i ⟨F.nan, F.nan⟩).angle))) := by
    unfold buildPoints
    rw [getD_map _ samples i (F.nan, F.nan) ⟨F.nan, F.nan⟩ hi]
  refine ⟨hlen, hget, fun hnf => ?_⟩
  rw [hget]
  exact ⟨Fmul_left_nonfinite _ _ hnf, Fmul_left_nonfinite _ _ hnf⟩

/-- Witness for C7 on a one-sample scan whose distance is `NaN`, with
identity conversion functions. -/
theorem claim_C7_witness :
    (buildPoints id id id [⟨F.fin 0, F.nan⟩]).length = [(⟨F.fin 0, F.nan⟩ : Sample)].length
    ∧ (buildPoints id id id [⟨F.fin 0, F.nan⟩]).getD 0 (F.nan, F.nan)
        = (Fmul ([(⟨F.fin 0, F.nan⟩ : Sample)].getD 0 ⟨F.nan, F.nan⟩).distance
            (id (id ([(⟨F.fin 0, F.nan⟩ : Sample)].getD 0 ⟨F.nan, F.nan⟩).angle)),
           Fmul ([(⟨F.fin 0, F.nan⟩ : Sample)].getD 0 ⟨F.nan, F.nan⟩).distance
            (id (id ([(⟨F.fin 0, F.nan⟩ : Sample)].getD 0 ⟨F.nan, F.nan⟩).angle)))
    ∧ (([(⟨F.fin 0, F.nan⟩ : Sample)].getD 0 ⟨F.nan, F.nan⟩).distance.isFinite = false →
        ((buildPoints id id id [⟨F.fin 0, F.nan⟩]).getD 0 (F.nan, F.nan)).1.isFinite = false
        ∧ ((buildPoints id id id [⟨F.fin 0, F.nan⟩]).getD 0 (F.nan, F.nan)).2.isFinite
            = false) :=
  claim_C7 id id id [⟨F.fin 0, F.nan⟩] 0 (by decide)

/-- Claim C4: a cycle whose scan acquisition fails is skipped — no
clustering, no box extraction, no dispatch — and the loop proceeds directly
to the next cycle (no retry within the cycle, no termination). -/
theorem claim_C4 (cluster : List (F × F) → List (Option Nat))
    (toRadians fcos fsin : F → F) (min_points : Nat) (tolerance : ℚ)
    (inp : CycleInput) (rest : List CycleInput)
    (herr : inp.scan = Except.error ()) :
    processCycle cluster toRadians fcos fsin min_points tolerance inp = CycleResult.skipped
    ∧ runLoop cluster toRadians fcos fsin min_points tolerance (inp :: rest)
        = CycleResult.skipped
          :: runLoop cluster toRadians fcos fsin min_points tolerance rest := by
  have h1 : processCycle cluster toRadians fcos fsin min_points tolerance inp
      = CycleResult.skipped := by
    unfold processCycle
    rw [herr]
  refine ⟨h1, ?_⟩
  unfold runLoop
  rw [List.map_cons, h1]

/-- Witness for C4 on a concrete failing acquisition followed by one more
cycle. -/
theorem claim_C4_witness :
    processCycle (fun _ => []) id id id 3 100
        { scan := Except.error (), sinkFails := false } = CycleResult.skipped
    ∧ runLoop (fun _ => []) id id id 3 100
        [{ scan := Except.error (), sinkFails := false },
         { scan := Except.ok [], sinkFails := false }]
        = CycleResult.skipped
          :: runLoop (fun _ => []) id id id 3 100
              [{ scan := Except.ok [], sinkFails := false }] :=
  claim_C4 (fun _ => []) id id id 3 100
    { scan := Except.error (), sinkFails := false }
    [{ scan := Except.ok [], sinkFails := false }] rfl

/-- Claim C5: a failing sink dispatch in cycle `k` is only logged — the
cycle still computes exactly the result a successful dispatch would have
carried (discarded, not retried or buffered), and cycle `k+1` is processed
exactly as its own input dictates (the loop does not halt). -/
theorem claim_C5 (cluster : List (F × F) → List (Option Nat))
    (toRadians fcos fsin : F → F) (inputs : List CycleInput)
    (k : Nat) (ck : CycleInput) (samples : List Sample)
    (hk : inputs[k]? = some ck) (hfail : ck.sinkFails = true)
    (hscan : ck.scan = Except.ok samples) :
    (runLoop cluster toRadians fcos fsin 3 100 inputs)[k]?
      = some (CycleResult.dispatched
          (scanResultOf cluster toRadians fcos fsin samples) true)
    ∧ processCycle cluster toRadians fcos fsin 3 100
        { scan := ck.scan, sinkFails := false }
      = CycleResult.dispatched (scanResultOf cluster toRadians fcos fsin samples) false
    ∧ (runLoop cluster toRadians fcos fsin 3 100 inputs)[k + 1]?
      = (inputs[k + 1]?).map (processCycle cluster toRadians fcos fsin 3 100) := by
  have hvalid : validParams 3 100 = true := by decide
  have hpc : processCycle cluster toRadians fcos fsin 3 100 ck
      = CycleResult.dispatched (scanResultOf cluster toRadians fcos fsin samples) true := by
    unfold processCycle
    rw [hscan, hvalid, hfail]
    simp
  refine ⟨?_, ?_, ?_⟩
  · unfold runLoop
    rw [List.getElem?_map, hk]
    simp [hpc]
  · unfold processCycle
    rw [hscan, hvalid]
    simp
  · unfold runLoop
    rw [List.getElem?_map]

/-- Witness for C5: sink failure on cycle 0; cycle 1 is still processed. -/
theorem claim_C5_witness :
    (runLoop (fun _ => []) id id id 3 100
        [{ scan := Except.ok [], sinkFails := true },
         { scan := Except.error (), sinkFails := false }])[0]?
      = some (CycleResult.dispatched (scanResultOf (fun _ => []) id id id []) true)
    ∧ processCycle (fun _ => []) id id id 3 100
        { scan := ({ scan := Except.ok [], sinkFails := true } : CycleInput).scan
          sinkFails := false }
      = CycleResult.dispatched (scanResultOf (fun _ => []) id id id []) false
    ∧ (runLoop (fun _ => []) id id id 3 100
        [{ scan := Except.ok [], sinkFails := true },
         { scan := Except.error (), sinkFails := false }])[0 + 1]?
      = ([({ scan := Except.ok [], sinkFails := true } : CycleInput),
          { scan := Except.error (), sinkFails := false }][0 + 1]?).map
          (processCycle (fun _ => []) id id id 3 100) :=
  claim_C5 (fun _ => []) id id id
    [{ scan := Except.ok [], sinkFails := true },
     { scan := Except.error (), sinkFails := false }]
    0 { scan := Except.ok [], sinkFails := true } [] rfl rfl rfl

/-- Counterexample to C8 as stated: with invalid clustering parameters
(`tolerance = 0`) the per-scan cycle is entered and fails there — the
clustering call's `unwrap` panics inside the cycle — rather than a
configuration error being signaled at startup before the loop. -/
theorem claim_C8_counterexample :
    processCycle (fun l => l.map (fun _ => none)) id id id 3 0
      { scan := Except.ok [⟨F.fin 0, F.fin 1⟩], sinkFails := false }
      = CycleResult.panicked := by decide

/-- Claim C8 (amended): the source performs no startup validation; its
parameters are the hardcoded constants `min_points = 3`,
`tolerance = 100.0` bound in the loop body, which are valid, so no cycle
ever panics; had the constants been invalid, the failure would surface as
a panic inside the per-scan cycle at the clustering call. -/
theorem claim_C8_amended (cluster : List (F × F) → List (Option Nat))
    (toRadians fcos fsin : F → F) (mp : Nat) (tol : ℚ)
    (samples : List Sample) (sf : Bool) (inp : CycleInput)
    (hinv : validParams mp tol = false) :
    validParams 3 100 = true
    ∧ processCycle cluster toRadians fcos fsin 3 100 inp ≠ CycleResult.panicked
    ∧ processCycle cluster toRadians fcos fsin mp tol
        { scan := Except.ok samples, sinkFails := sf } = CycleResult.panicked := by
  refine ⟨by decide, ?_, ?_⟩
  · unfold processCycle
    cases h : inp.scan with
    | error e => simp
    | ok s => simp [show validParams 3 100 = true from by decide]
  · unfold processCycle
    simp [hinv]

/-- Witness for the amended C8 at the invalid parameters
`min_points = 0`, `tolerance = 0`. -/
theorem claim_C8_amended_witness :
    validParams 3 100 = true
    ∧ processCycle (fun _ => []) id id id 3 100
        { scan := Except.error (), sinkFails := false } ≠ CycleResult.panicked
    ∧ processCycle (fun _ => []) id id id 0 0
        { scan := Except.ok [], sinkFails := false } = CycleResult.panicked :=
  claim_C8_amended (fun _ => []) id id id 0 0 [] false
    { scan := Except.error (), sinkFails := false } (by decide)

/-- Claim C9: a cycle whose acquired scan is empty completes without
failure and dispatches a sink call whose `scan_points`, `point_labels`
and `bounding_boxes` arrays are all empty (hypothesis: the external
clustering engine returns an empty label set on an empty input, per the
spec's N = 0 case). -/
theorem claim_C9 (cluster : List (F × F) → List (Option Nat))
    (toRadians fcos fsin : F → F) (sf : Bool)
    (hc : cluster [] = []) :
    processCycle cluster toRadians fcos fsin 3 100
        { scan := Except.ok [], sinkFails := sf }
      = CycleResult.dispatched
          { scan_points := [], point_labels := [], bounding_boxes := [] } sf := by
  unfold processCycle scanResultOf buildPoints
  simp [hc, labelCountLen, groupPoints, show validParams 3 100 = true from by decide]

/-- Witness for C9 with a concrete labeling function. -/
theorem claim_C9_witness :
    processCycle (fun l => l.map (fun _ => none)) id id id 3 100
        { scan := Except.ok [], sinkFails := false }
      = CycleResult.dispatched
          { scan_points := [], point_labels := [], bounding_boxes := [] } false :=
  claim_C9 (fun l => l.map (fun _ => none)) id id id false rfl

/-- C3 failing run: on a two-point scan labeled `[Some 0, None]` the cycle
calls `calculate_bounding_box` twice — once for cluster 0 and once for the
empty noise-slot bucket — and the second call (on an empty point set)
yields the `(NaN, NaN)` center, `-∞` width/height box that is dispatched
to the sink, contradicting the claim that the extractor is never invoked
for the Noise bucket or on an empty set. -/
theorem claim_C3_failing_run :
    processCycle (fun l => (l.map (fun _ => some 0)).set 1 none) id id id 3 100
      { scan := Except.ok [⟨F.fin 1, F.fin 2⟩, ⟨F.fin 1, F.fin 3⟩], sinkFails := false }
    = CycleResult.dispatched
      { scan_points := [(F.fin 2, F.fin 2), (F.fin 3, F.fin 3)]
        point_labels := [some 0, none]
        bounding_boxes :=
          [(0, { center := (F.fin 2, F.fin 2), width := F.fin 0, height := F.fin 0,
                 theta := F.fin 0 }),
           (1, { center := (F.nan, F.nan), width := F.ninf, height := F.ninf,
                 theta := F.fin 0 })] }
      false := by
  have hb : buildPoints id id id [⟨F.fin 1, F.fin 2⟩, ⟨F.fin 1, F.fin 3⟩]
      = [(F.fin 2, F.fin 2), (F.fin 3, F.fin 3)] := by
    norm_num [buildPoints, Fmul]
  have hbb : calculate_bounding_box [(F.fin 2, F.fin 2)]
      = { center := (F.fin 2, F.fin 2), width := F.fin 0, height := F.fin 0,
          theta := F.fin 0 } := by
    simp only [calculate_bounding_box, List.foldl_cons, List.foldl_nil]
    norm_num [Fmin, Fmax, Fadd, Fdiv2, Fsub, Fneg]
  simp only [processCycle, scanResultOf, hb]
  rw [show (List.map (fun _ => (some 0 : Option Nat))
        [((F.fin 2 : F), (F.fin 2 : F)), (F.fin 3, F.fin 3)]).set 1 none
      = [some 0, none] from by decide]
  rw [show labelCountLen [some 0, none] = 2 from by decide]
  rw [show groupPoints [(F.fin 2, F.fin 2), (F.fin 3, F.fin 3)] [some 0, none] 2
      = [[(F.fin 2, F.fin 2)], []] from by decide]
  simp only [List.enum, List.enumFrom, List.map_cons, List.map_nil, hbb]
  norm_num [validParams]
  decide

/-- Claim C10: in a cycle with at least one Noise-labeled point,
`num_clusters = label_count.len()` counts the Noise key, so the
`cluster_points` vector (and the dispatched `bounding_boxes` list) has one
entry more than the number of actual clusters; the extra bucket stays
empty, and `calculate_bounding_box` on it returns (without panicking) a box
with `NaN` center and `-∞` width/height, which is part of the `ScanResult`
handed to the sink. -/
theorem claim_C10 (cluster : List (F × F) → List (Option Nat))
    (toRadians fcos fsin : F → F) (samples : List Sample) (sf : Bool)
    (pts : List (F × F)) (labels : List (Option Nat)) (k : Nat)
    (hpts : pts = buildPoints toRadians fcos fsin samples)
    (hlab : labels = cluster pts)
    (hk : k = (labels.filterMap id).toFinset.card)
    (hdense : ∀ j ∈ labels.filterMap id, j < k)
    (hnoise : none ∈ labels) :
    labelCountLen labels = k + 1
    ∧ processCycle cluster toRadians fcos fsin 3 100
        { scan := Except.ok samples, sinkFails := sf }
      = CycleResult.dispatched (scanResultOf cluster toRadians fcos fsin samples) sf
    ∧ (scanResultOf cluster toRadians fcos fsin samples).bounding_boxes.length = k + 1
    ∧ (groupPoints pts labels (labelCountLen labels)).getD k [] = []
    ∧ calculate_bounding_box []
      = { center := (F.nan, F.nan), width := F.ninf, height := F.ninf, theta := F.fin 0 }
    ∧ (scanResultOf cluster toRadians fcos fsin samples).bounding_boxes.getD k
        (0, calculate_bounding_box [])
      = (k, { center := (F.nan, F.nan), width := F.ninf, height := F.ninf,
              theta := F.fin 0 }) := by
  have h1 : labelCountLen labels = k + 1 := by
    rw [hk]
    exact labelCountLen_of_none_mem labels hnoise
  have h2 : processCycle cluster toRadians fcos fsin 3 100
      { scan := Except.ok samples, sinkFails := sf }
      = CycleResult.dispatched (scanResultOf cluster toRadians fcos fsin samples) sf := by
    unfold processCycle
    simp [show validParams 3 100 = true from by decide]
  have hsr : (scanResultOf cluster toRadians fcos fsin samples).bounding_boxes
      = ((groupPoints pts labels (labelCountLen labels)).enum).map
          (fun b => (b.1, calculate_bounding_box b.2)) := by
    simp only [scanResultOf]
    rw [← hpts, ← hlab]
  have hbucket : (groupPoints pts labels (labelCountLen labels)).getD k [] = [] := by
    rw [groupPoints_getD pts labels _ k (by rw [h1]; exact Nat.lt_succ_self k)]
    apply clusterSlice_eq_nil
    intro i hi
    exact Nat.ne_of_lt (hdense i (List.mem_filterMap.mpr ⟨some i, hi, rfl⟩))
  have h5 : calculate_bounding_box []
      = { center := (F.nan, F.nan), width := F.ninf, height := F.ninf,
          theta := F.fin 0 } := rfl
  have hlt : k < (groupPoints pts labels (labelCountLen labels)).length := by
    rw [groupPoints_length, h1]
    exact Nat.lt_succ_self k
  have h3 : (scanResultOf cluster toRadians fcos fsin samples).bounding_boxes.length
      = k + 1 := by
    rw [hsr, List.length_map, List.enum_length, groupPoints_length, h1]
  have h6 : (scanResultOf cluster toRadians fcos fsin samples).bounding_boxes.getD k
      (0, calculate_bounding_box [])
      = (k, { center := (F.nan, F.nan), width := F.ninf, height := F.ninf,
              theta := F.fin 0 }) := by
    rw [hsr]
    have hlt2 : k < (groupPoints pts labels (labelCountLen labels)).enum.length := by
      rw [List.enum_length]
      exact hlt
    rw [getD_map _ _ k _ ((0 : Nat), ([] : List (F × F))) hlt2,
      show (groupPoints pts labels (labelCountLen labels)).enum
        = List.enumFrom 0 (groupPoints pts labels (labelCountLen labels)) from rfl,
      getD_enumFrom _ 0 k ((0 : Nat), ([] : List (F × F))) [] hlt,
      Nat.zero_add, hbucket]
    rfl
  exact ⟨h1, h2, h3, hbucket, h5, h6⟩

/-- Witness for C10 on a two-sample scan labeled `[Some 0, None]` (one
actual cluster plus one noise point): two bounding-box entries, the second
being the `NaN`/`-∞` box of the empty noise slot. -/
theorem claim_C10_witness :
    labelCountLen [some 0, none] = 1 + 1
    ∧ processCycle (fun _ => [some 0, none]) id id id 3 100
        { scan := Except.ok [⟨F.fin 1, F.fin 2⟩, ⟨F.fin 1, F.fin 3⟩], sinkFails := false }
      = CycleResult.dispatched
          (scanResultOf (fun _ => [some 0, none]) id id id
            [⟨F.fin 1, F.fin 2⟩, ⟨F.fin 1, F.fin 3⟩]) false
    ∧ (scanResultOf (fun _ => [some 0, none]) id id id
        [⟨F.fin 1, F.fin 2⟩, ⟨F.fin 1, F.fin 3⟩]).bounding_boxes.length = 1 + 1
    ∧ (groupPoints (buildPoints id id id [⟨F.fin 1, F.fin 2⟩, ⟨F.fin 1, F.fin 3⟩])
        [some 0, none] (labelCountLen [some 0, none])).getD 1 [] = []
    ∧ calculate_bounding_box []
      = { center := (F.nan, F.nan), width := F.ninf, height := F.ninf, theta := F.fin 0 }
    ∧ (scanResultOf (fun _ => [some 0, none]) id id id
        [⟨F.fin 1, F.fin 2⟩, ⟨F.fin 1, F.fin 3⟩]).bounding_boxes.getD 1
        (0, calculate_bounding_box [])
      = (1, { center := (F.nan, F.nan), width := F.ninf, height := F.ninf,
              theta := F.fin 0 }) :=
  claim_C10 (fun _ => [some 0, none]) id id id
    [⟨F.fin 1, F.fin 2⟩, ⟨F.fin 1, F.fin 3⟩] false
    (buildPoints id id id [⟨F.fin 1, F.fin 2⟩, ⟨F.fin 1, F.fin 3⟩])
    [some 0, none] 1 rfl rfl (by decide) (by decide) (by decide)
